import Mathlib

/-! Shallow embedding of `src/examples/rights_parser_client.py` (class
`RightsParserClient`), a synchronous HTTP client for a remote
document-processing API.

Modelling conventions:
- JSON values are an inductive `Json`; a server HTTP response is a status
  code plus an already-parsed JSON body (`response.json()` is assumed to
  parse; malformed-body behaviour is out of scope of the claims).
- The remote server is an oracle passed to each operation: a fixed
  `HttpResponse` per endpoint, and for the polling loop a function
  `Nat → HttpResponse` giving the response to the n-th `get_status` call.
- Wall-clock time is modelled deterministically: network round-trips are
  instantaneous and only `time.sleep(poll_interval)` advances the clock,
  so the n-th poll of `wait_for_completion` happens at `n * poll_interval`
  seconds after `start_time`.
- Python exceptions become the `ClientError` sum; `raise_for_status` of
  the `requests` library raises exactly for status codes in [400, 600).
- The unbounded `while True` loop is modelled with fuel; `none` means the
  fuel was exhausted (the Python loop would still be running). Top-level
  wrappers supply fuel sufficient for every terminating run.
-/

/-- JSON values (Python objects produced by `response.json()`). -/
inductive Json where
  | null
  | bool (b : Bool)
  | num (n : Int)
  | str (s : String)
  | arr (xs : List Json)
  | obj (fields : List (String × Json))

mutual

/-- Structural equality test on JSON values. -/
def Json.beq : Json → Json → Bool
  | .null, .null => true
  | .bool a, .bool b => a == b
  | .num a, .num b => a == b
  | .str a, .str b => a == b
  | .arr xs, .arr ys => Json.beqList xs ys
  | .obj xs, .obj ys => Json.beqFields xs ys
  | _, _ => false

/-- Equality test on JSON arrays. -/
def Json.beqList : List Json → List Json → Bool
  | [], [] => true
  | x :: xs, y :: ys => Json.beq x y && Json.beqList xs ys
  | _, _ => false

/-- Equality test on JSON object fields. -/
def Json.beqFields : List (String × Json) → List (String × Json) → Bool
  | [], [] => true
  | (k, v) :: xs, (l, w) :: ys => k == l && Json.beq v w && Json.beqFields xs ys
  | _, _ => false

end

mutual

def Json.eq_of_beq : ∀ (a b : Json), Json.beq a b = true → a = b
  | .null, .null, _ => rfl
  | .bool a, .bool b, h => by simpa [Json.beq] using h
  | .num a, .num b, h => by simpa [Json.beq] using h
  | .str a, .str b, h => by simpa [Json.beq] using h
  | .arr xs, .arr ys, h => by
      rw [Json.eqList_of_beq xs ys (by simpa [Json.beq] using h)]
  | .obj xs, .obj ys, h => by
      rw [Json.eqFields_of_beq xs ys (by simpa [Json.beq] using h)]

def Json.eqList_of_beq : ∀ (xs ys : List Json), Json.beqList xs ys = true → xs = ys
  | [], [], _ => rfl
  | x :: xs, y :: ys, h => by
      have h' := h
      simp only [Json.beqList, Bool.and_eq_true] at h'
      rw [Json.eq_of_beq x y h'.1, Json.eqList_of_beq xs ys h'.2]

def Json.eqFields_of_beq :
    ∀ (xs ys : List (String × Json)), Json.beqFields xs ys = true → xs = ys
  | [], [], _ => rfl
  | (k, v) :: xs, (l, w) :: ys, h => by
      have h' := h
      simp only [Json.beqFields, Bool.and_eq_true, beq_iff_eq] at h'
      rw [h'.1.1, Json.eq_of_beq v w h'.1.2, Json.eqFields_of_beq xs ys h'.2]

end

mutual

def Json.beq_refl : ∀ (a : Json), Json.beq a a = true
  | .null => rfl
  | .bool a => by simp [Json.beq]
  | .num a => by simp [Json.beq]
  | .str a => by simp [Json.beq]
  | .arr xs => by simpa [Json.beq] using Json.beqList_refl xs
  | .obj xs => by simpa [Json.beq] using Json.beqFields_refl xs

def Json.beqList_refl : ∀ (xs : List Json), Json.beqList xs xs = true
  | [] => rfl
  | x :: xs => by
      simp only [Json.beqList, Bool.and_eq_true]
      exact ⟨Json.beq_refl x, Json.beqList_refl xs⟩

def Json.beqFields_refl : ∀ (xs : List (String × Json)), Json.beqFields xs xs = true
  | [] => rfl
  | (k, v) :: xs => by
      simp only [Json.beqFields, Bool.and_eq_true, beq_iff_eq]
      exact ⟨⟨trivial, Json.beq_refl v⟩, Json.beqFields_refl xs⟩

end

instance : DecidableEq Json := fun a b =>
  if h : Json.beq a b = true then isTrue (Json.eq_of_beq a b h)
  else isFalse (fun he => h (he ▸ Json.beq_refl a))

mutual

/-- Python `repr` of a JSON value (as used by f-string interpolation of
non-`str` values). Escaping of quotes inside strings is not modelled. -/
def Json.pyRepr : Json → String
  | .null => "None"
  | .bool b => if b then "True" else "False"
  | .num n => toString n
  | .str s => "'" ++ s ++ "'"
  | .arr xs => "[" ++ Json.pyReprList xs ++ "]"
  | .obj kvs => "\x7b" ++ Json.pyReprFields kvs ++ "\x7d"

/-- Comma-separated `repr` of list elements. -/
def Json.pyReprList : List Json → String
  | [] => ""
  | [x] => x.pyRepr
  | x :: xs => x.pyRepr ++ ", " ++ Json.pyReprList xs

/-- Comma-separated `repr` of dict entries. -/
def Json.pyReprFields : List (String × Json) → String
  | [] => ""
  | [(k, v)] => "'" ++ k ++ "': " ++ v.pyRepr
  | (k, v) :: kvs => "'" ++ k ++ "': " ++ v.pyRepr ++ ", " ++ Json.pyReprFields kvs

end

/-- Python `str` of a JSON value, as produced by f-string interpolation
(`f"...{v}..."`): a `str` interpolates verbatim, other values via `repr`
(scalars printed Python-style). -/
def Json.pyStr : Json → String
  | .str s => s
  | v => v.pyRepr

/-- Field lookup in a JSON object (`None` when not an object or key
absent). Keys of a Python dict are unique, so first match suffices. -/
def Json.lookup : Json → String → Option Json
  | .obj fields, k => List.lookup k fields
  | _, _ => none

/-- Python exceptions the client can raise. -/
inductive ClientError where
  /-- The `requests.HTTPError` from `raise_for_status`, or a network failure;
  the spec calls this kind TransportError. Carries the HTTP status code. -/
  | transportError (statusCode : Nat)
  /-- The bare `Exception` raised by `wait_for_completion` on a failed job;
  the spec calls this kind ProcessingError. -/
  | processingError (msg : String)
  /-- The `TimeoutError` raised by `wait_for_completion`. -/
  | timeoutError (msg : String)
  /-- Python `KeyError` from subscripting a dict with a missing key. -/
  | keyError (key : String)
  /-- Python `TypeError` from subscripting a non-dict JSON value. -/
  | pyTypeError (msg : String)
deriving DecidableEq

/-- Python subscription `body[k]`: the value, `KeyError` when the key is
absent, `TypeError` when the value is not a dict. -/
def Json.getItem : Json → String → Except ClientError Json
  | .obj fields, k =>
    match List.lookup k fields with
    | some v => Except.ok v
    | none => Except.error (ClientError.keyError k)
  | _, _ => Except.error (ClientError.pyTypeError "string indices must be integers")

/-- Python `body.get(k, default)` (only ever reached on dict values in the
client; on non-dicts we return the default). -/
def Json.getD (j : Json) (k : String) (d : Json) : Json :=
  match j.lookup k with
  | some v => v
  | none => d

/-- One HTTP response: status code and parsed JSON body. -/
structure HttpResponse where
  statusCode : Nat
  body : Json
deriving DecidableEq

/-- Python `requests.Response.raise_for_status` raises `HTTPError` exactly for
client and server error codes, i.e. codes in [400, 600). -/
def HttpResponse.raisesForStatus (r : HttpResponse) : Bool :=
  400 ≤ r.statusCode && r.statusCode < 600

/-- The common `response.raise_for_status(); return response.json()` tail
of every client operation. -/
def httpJson (r : HttpResponse) : Except ClientError Json :=
  if r.raisesForStatus then Except.error (ClientError.transportError r.statusCode)
  else Except.ok r.body

/-- Python rstrip of slashes: remove all trailing slash characters. -/
def rstripSlash (s : String) : String :=
  ⟨(s.data.reverse.dropWhile (fun c => c = '/')).reverse⟩

/-- An HTTP request as issued through the `requests.Session`: method, full
URL, the session's headers, and query parameters. The multipart file body
of the upload request is not modelled (no claim depends on it). -/
structure Request where
  method : String
  url : String
  headers : List (String × String)
  params : List (String × String)
deriving DecidableEq

/-- The client: configuration fields set by `__init__` plus the session
headers installed by `session.headers.update(...)` (the `requests` default
headers are not modelled). -/
structure RightsParserClient where
  api_url : String
  api_key : String
  timeout : Nat
  session_headers : List (String × String)
deriving DecidableEq

/-- Constructor `RightsParserClient.__init__` (default timeout 300 seconds). -/
def RightsParserClient.init (api_url api_key : String) (timeout : Nat) :
    RightsParserClient :=
  { api_url := rstripSlash api_url
  , api_key := api_key
  , timeout := timeout
  , session_headers := [("X-API-Key", api_key)] }

/-- The POST request of `upload_pdf`. Python truthiness: an empty
`webhook_url` string is falsy and is not added to the params. -/
def RightsParserClient.uploadRequest (c : RightsParserClient)
    (webhook_url : Option String) : Request :=
  { method := "POST"
  , url := c.api_url ++ "/api/v1/upload"
  , headers := c.session_headers
  , params :=
      match webhook_url with
      | some u => if u = "" then [] else [("webhook_url", u)]
      | none => [] }

/-- The GET request of `get_status`. -/
def RightsParserClient.statusRequest (c : RightsParserClient) (job_id : String) :
    Request :=
  { method := "GET"
  , url := c.api_url ++ "/api/v1/status/" ++ job_id
  , headers := c.session_headers
  , params := [] }

/-- The GET request of `get_result`. -/
def RightsParserClient.resultRequest (c : RightsParserClient) (job_id : String) :
    Request :=
  { method := "GET"
  , url := c.api_url ++ "/api/v1/result/" ++ job_id
  , headers := c.session_headers
  , params := [] }

/-- The GET request of `list_jobs`. -/
def RightsParserClient.jobsRequest (c : RightsParserClient) : Request :=
  { method := "GET"
  , url := c.api_url ++ "/api/v1/jobs"
  , headers := c.session_headers
  , params := [] }

/-- The GET request of `health`. -/
def RightsParserClient.healthRequest (c : RightsParserClient) : Request :=
  { method := "GET"
  , url := c.api_url ++ "/health"
  , headers := c.session_headers
  , params := [] }

deriving instance DecidableEq for Except

/-- Outcome of a single-request operation: the client state after the
call, the requests issued, and the returned value or raised exception. -/
structure OpResult where
  client : RightsParserClient
  requests : List Request
  result : Except ClientError Json
deriving DecidableEq

/-- Operation `get_status(job_id)` run against the server response `resp`. -/
def RightsParserClient.get_status (c : RightsParserClient) (job_id : String)
    (resp : HttpResponse) : OpResult :=
  ⟨c, [c.statusRequest job_id], httpJson resp⟩

/-- Operation `get_result(job_id)` run against the server response `resp`. -/
def RightsParserClient.get_result (c : RightsParserClient) (job_id : String)
    (resp : HttpResponse) : OpResult :=
  ⟨c, [c.resultRequest job_id], httpJson resp⟩

/-- Operation `list_jobs()` run against the server response `resp`. -/
def RightsParserClient.list_jobs (c : RightsParserClient)
    (resp : HttpResponse) : OpResult :=
  ⟨c, [c.jobsRequest], httpJson resp⟩

/-- Operation `health()` run against the server response `resp`. -/
def RightsParserClient.health (c : RightsParserClient)
    (resp : HttpResponse) : OpResult :=
  ⟨c, [c.healthRequest], httpJson resp⟩

/-- Outcome of one run of `wait_for_completion`. -/
structure WaitOut where
  /-- The client state after the call (the loop never assigns to `self`). -/
  client : RightsParserClient
  /-- The `get_status` requests issued by the loop, each tagged with the
  elapsed seconds since `start_time` at which it was issued. -/
  polls : List (Nat × Request)
  /-- The `get_result` request, when the loop reached status completed. -/
  resultReq : Option Request
  /-- Elapsed seconds since `start_time` when the loop returned or raised. -/
  finishTime : Nat
  /-- The returned payload or the raised exception. -/
  result : Except ClientError Json
deriving DecidableEq

/-- The body of `wait_for_completion`: iteration at poll index `n`
(elapsed time `n * poll_interval`), with `fuel` remaining loop iterations
allowed by the model. `sv n` is the server's response to the n-th
`get_status` poll, `resultResp` its response to `get_result`. -/
def RightsParserClient.waitAux (c : RightsParserClient) (sv : Nat → HttpResponse)
    (resultResp : HttpResponse) (job_id : String) (poll_interval : Nat) :
    Nat → Nat → Option WaitOut
  | _, 0 => none
  | n, fuel + 1 =>
    -- if time.time() - start_time > self.timeout: raise TimeoutError(...)
    if c.timeout < n * poll_interval then
      some ⟨c, [], none, n * poll_interval,
        Except.error (ClientError.timeoutError
          ("Job " ++ job_id ++ " did not complete within " ++ toString c.timeout ++ "s"))⟩
    -- status = self.get_status(job_id)  (raises on non-success HTTP status)
    else if (sv n).raisesForStatus then
      some ⟨c, [(n * poll_interval, c.statusRequest job_id)], none, n * poll_interval,
        Except.error (ClientError.transportError (sv n).statusCode)⟩
    else
      match (sv n).body.getItem "status" with
      | Except.error e =>
        some ⟨c, [(n * poll_interval, c.statusRequest job_id)], none, n * poll_interval,
          Except.error e⟩
      | Except.ok v =>
        -- if status['status'] == 'completed': return self.get_result(job_id)
        if v = Json.str "completed" then
          some ⟨c, [(n * poll_interval, c.statusRequest job_id)],
            some (c.resultRequest job_id), n * poll_interval, httpJson resultResp⟩
        -- elif status['status'] == 'failed': raise Exception(f"Job failed: ...")
        else if v = Json.str "failed" then
          some ⟨c, [(n * poll_interval, c.statusRequest job_id)], none, n * poll_interval,
            Except.error (ClientError.processingError
              ("Job failed: " ++
                ((sv n).body.getD "error_message" (Json.str "Unknown error")).pyStr))⟩
        -- else: time.sleep(poll_interval) and loop again
        else
          match c.waitAux sv resultResp job_id poll_interval (n + 1) fuel with
          | none => none
          | some o =>
            some { o with polls := (n * poll_interval, c.statusRequest job_id) :: o.polls }

/-- Operation `wait_for_completion(job_id, poll_interval=10)` run against the server
oracle. The fuel `timeout / poll_interval + 2` covers every iteration the
Python loop can perform when `poll_interval ≥ 1`: the loop times out no
later than poll index `timeout / poll_interval + 1`. -/
def RightsParserClient.wait_for_completion (c : RightsParserClient)
    (sv : Nat → HttpResponse) (resultResp : HttpResponse) (job_id : String)
    (poll_interval : Nat) : Option WaitOut :=
  c.waitAux sv resultResp job_id poll_interval 0 (c.timeout / max poll_interval 1 + 2)

/-- The server's fixed responses for one submit-and-wait interaction. -/
structure Server where
  /-- Response to `POST /api/v1/upload`. -/
  upload : HttpResponse
  /-- Response to the n-th `GET /api/v1/status/...` call. -/
  status : Nat → HttpResponse
  /-- Response to `GET /api/v1/result/...`. -/
  result : HttpResponse

/-- Outcome of one run of `upload_pdf`. -/
structure UploadOut where
  /-- The client state after the call. -/
  client : RightsParserClient
  /-- The upload POST request issued. -/
  uploadReq : Request
  /-- The embedded `wait_for_completion` run, when it was entered. -/
  wait : Option WaitOut
  /-- The returned payload or the raised exception. -/
  result : Except ClientError Json
deriving DecidableEq

/-- Operation `upload_pdf(file_path, webhook_url=None, wait_for_result=...)`. The
file is read and sent as a multipart body; its contents do not influence
the control flow, so only the path is kept. When waiting, Python calls
`wait_for_completion(job_id)` with its default `poll_interval = 10`, and
any JSON `job_id` value is interpolated into URLs via `str(...)`. -/
def RightsParserClient.upload_pdf (c : RightsParserClient) (sv : Server)
    (file_path : String) (webhook_url : Option String) (wait_for_result : Bool) :
    Option UploadOut :=
  let req := c.uploadRequest webhook_url
  -- response.raise_for_status()
  if sv.upload.raisesForStatus then
    some ⟨c, req, none, Except.error (ClientError.transportError sv.upload.statusCode)⟩
  else
    -- job = response.json(); job_id = job['job_id']
    let job := sv.upload.body
    match job.getItem "job_id" with
    | Except.error e => some ⟨c, req, none, Except.error e⟩
    | Except.ok jid =>
      if wait_for_result = false then
        some ⟨c, req, none, Except.ok job⟩
      else
        match c.wait_for_completion sv.status sv.result jid.pyStr 10 with
        | none => none
        | some o => some ⟨c, req, some o, o.result⟩

/-- Modelled from the spec: the manual polling loop of the comparison
sequence — "repeated get_status until a terminal status, then get_result".
The caller polls `get_status`; on a terminal status (completed or failed)
it fetches the result; otherwise it polls again. `fuel` bounds the number
of polls the model evaluates. -/
def manualPollAux (c : RightsParserClient) (sv : Nat → HttpResponse)
    (resultResp : HttpResponse) (job_id : String) :
    Nat → Nat → Option (Except ClientError Json)
  | _, 0 => none
  | n, fuel + 1 =>
    match (c.get_status job_id (sv n)).result with
    | Except.error e => some (Except.error e)
    | Except.ok body =>
      match body.getItem "status" with
      | Except.error e => some (Except.error e)
      | Except.ok v =>
        if v = Json.str "completed" ∨ v = Json.str "failed" then
          some (c.get_result job_id resultResp).result
        else
          manualPollAux c sv resultResp job_id (n + 1) fuel

/-- Modelled from the spec: the manual submit+poll+get_result sequence —
`upload_pdf` with `wait_for_result` false, then repeated `get_status`
until a terminal status, then `get_result`. The model evaluates the same
number of polls the composed operation's fuel allows. -/
def manual_sequence (c : RightsParserClient) (sv : Server)
    (file_path : String) (webhook_url : Option String) :
    Option (Except ClientError Json) :=
  match c.upload_pdf sv file_path webhook_url false with
  | none => none
  | some u =>
    match u.result with
    | Except.error e => some (Except.error e)
    | Except.ok job =>
      match job.getItem "job_id" with
      | Except.error e => some (Except.error e)
      | Except.ok jid =>
        manualPollAux c sv.status sv.result jid.pyStr 0 (c.timeout / 10 + 2)

/-- A status poll that keeps the loop going: the HTTP call succeeds and
the body's "status" field is neither "completed" nor "failed". -/
def nonterminalPoll (r : HttpResponse) : Prop :=
  r.raisesForStatus = false ∧
  ∃ v, r.body.getItem "status" = Except.ok v ∧
    v ≠ Json.str "completed" ∧ v ≠ Json.str "failed"

/-- The timeout message raised by `wait_for_completion`. -/
def timeoutMsg (job_id : String) (timeout : Nat) : String :=
  "Job " ++ job_id ++ " did not complete within " ++ toString timeout ++ "s"

theorem waitAux_shape (c : RightsParserClient) (sv : Nat → HttpResponse)
    (rr : HttpResponse) (jid : String) (poll : Nat) :
    ∀ (fuel n : Nat) (o : WaitOut),
      c.waitAux sv rr jid poll n fuel = some o →
      o.client = c ∧
      (o.resultReq = none ∨ o.resultReq = some (c.resultRequest jid)) ∧
      ∀ (i : Nat) (p : Nat × Request), o.polls.get? i = some p →
        p = ((n + i) * poll, c.statusRequest jid) := by
  intro fuel
  induction fuel with
  | zero => intro n o h; simp [RightsParserClient.waitAux] at h
  | succ fuel ih =>
    intro n o h
    rw [RightsParserClient.waitAux] at h
    split at h
    · obtain rfl := Option.some.inj h
      refine ⟨rfl, Or.inl rfl, ?_⟩
      intro i p hp; simp at hp
    · split at h
      · obtain rfl := Option.some.inj h
        refine ⟨rfl, Or.inl rfl, ?_⟩
        intro i p hp
        cases i with
        | zero => simpa using hp.symm
        | succ j => simp at hp
      · split at h
        · obtain rfl := Option.some.inj h
          refine ⟨rfl, Or.inl rfl, ?_⟩
          intro i p hp
          cases i with
          | zero => simpa using hp.symm
          | succ j => simp at hp
        · split at h
          · obtain rfl := Option.some.inj h
            refine ⟨rfl, Or.inr rfl, ?_⟩
            intro i p hp
            cases i with
            | zero => simpa using hp.symm
            | succ j => simp at hp
          · split at h
            · obtain rfl := Option.some.inj h
              refine ⟨rfl, Or.inl rfl, ?_⟩
              intro i p hp
              cases i with
              | zero => simpa using hp.symm
              | succ j => simp at hp
            · split at h
              · exact absurd h (by simp)
              · rename_i o' ho'
                obtain rfl := Option.some.inj h
                obtain ⟨hc, hrr, hps⟩ := ih (n + 1) o' ho'
                refine ⟨hc, hrr, ?_⟩
                intro i p hp
                cases i with
                | zero =>
                  have hp0 : p = (n * poll, c.statusRequest jid) := by simpa using hp.symm
                  simpa using hp0
                | succ j =>
                  have hj : o'.polls.get? j = some p := by simpa using hp
                  have hpj := hps j p hj
                  rw [hpj]
                  have he : n + 1 + j = n + (j + 1) := by omega
                  rw [he]

theorem waitAux_timeout (c : RightsParserClient) (sv : Nat → HttpResponse)
    (rr : HttpResponse) (jid : String) (poll : Nat) (hpoll : 1 ≤ poll)
    (hsv : ∀ m, m * poll ≤ c.timeout → nonterminalPoll (sv m)) :
    ∀ (fuel n : Nat), c.timeout / poll + 2 ≤ n + fuel →
      (n = 0 ∨ (n - 1) * poll ≤ c.timeout) →
      ∃ o, c.waitAux sv rr jid poll n fuel = some o ∧
        o.result = Except.error (ClientError.timeoutError (timeoutMsg jid c.timeout)) ∧
        o.finishTime ≤ c.timeout + poll := by
  intro fuel
  induction fuel with
  | zero =>
    intro n hfuel hinv
    exfalso
    rcases hinv with rfl | hle
    · simp at hfuel
    · have hq : n - 1 ≤ c.timeout / poll := (Nat.le_div_iff_mul_le hpoll).mpr hle
      generalize hqq : c.timeout / poll = q at hq hfuel
      omega
  | succ fuel ih =>
    intro n hfuel hinv
    by_cases ht : c.timeout < n * poll
    · refine ⟨⟨c, [], none, n * poll,
        Except.error (ClientError.timeoutError (timeoutMsg jid c.timeout))⟩, ?_, rfl, ?_⟩
      · rw [RightsParserClient.waitAux]
        rw [if_pos ht]
        rfl
      · show n * poll ≤ c.timeout + poll
        rcases n with _ | m
        · simpa using Nat.le_add_right 0 (c.timeout + poll)
        · rcases hinv with hn | hle
          · exact absurd hn (Nat.succ_ne_zero m)
          · calc (m + 1) * poll = m * poll + poll := Nat.succ_mul m poll
              _ ≤ c.timeout + poll := by
                have hmp : m * poll ≤ c.timeout := by simpa using hle
                omega
    · have hle : n * poll ≤ c.timeout := Nat.le_of_not_lt ht
      obtain ⟨hraise, v, hgi, hvc, hvf⟩ := hsv n hle
      have hfuel' : c.timeout / poll + 2 ≤ (n + 1) + fuel := by omega
      obtain ⟨o, ho, hr, hf⟩ := ih (n + 1) hfuel' (Or.inr (by simpa using hle))
      refine ⟨{ o with polls := (n * poll, c.statusRequest jid) :: o.polls }, ?_, hr, hf⟩
      rw [RightsParserClient.waitAux]
      rw [if_neg ht]
      rw [hraise]
      simp only [Bool.false_eq_true, if_false, hgi]
      rw [if_neg hvc, if_neg hvf, ho]

theorem waitAux_failed (c : RightsParserClient) (sv : Nat → HttpResponse)
    (rr : HttpResponse) (jid : String) (poll : Nat) (k : Nat)
    (hsv : ∀ m, m < k → nonterminalPoll (sv m))
    (htime : ∀ m, m ≤ k → m * poll ≤ c.timeout)
    (hkraise : (sv k).raisesForStatus = false)
    (hkst : (sv k).body.getItem "status" = Except.ok (Json.str "failed")) :
    ∀ (fuel n : Nat), n ≤ k → k < n + fuel →
      ∃ o, c.waitAux sv rr jid poll n fuel = some o ∧
        o.result = Except.error (ClientError.processingError
          ("Job failed: " ++
            ((sv k).body.getD "error_message" (Json.str "Unknown error")).pyStr)) ∧
        o.finishTime = k * poll ∧ o.polls.length = k - n + 1 := by
  intro fuel
  induction fuel with
  | zero => intro n hnk hk; omega
  | succ fuel ih =>
    intro n hnk hk
    rcases Nat.eq_or_lt_of_le hnk with rfl | hlt
    · refine ⟨⟨c, [(n * poll, c.statusRequest jid)], none, n * poll,
        Except.error (ClientError.processingError
          ("Job failed: " ++
            ((sv n).body.getD "error_message" (Json.str "Unknown error")).pyStr))⟩,
        ?_, rfl, rfl, by simp⟩
      rw [RightsParserClient.waitAux]
      rw [if_neg (Nat.not_lt.mpr (htime n (Nat.le_refl n)))]
      rw [hkraise]
      simp only [Bool.false_eq_true, if_false, hkst]
      simp
    · obtain ⟨hraise, v, hgi, hvc, hvf⟩ := hsv n hlt
      obtain ⟨o, ho, hr, hf, hl⟩ := ih (n + 1) hlt (by omega)
      refine ⟨{ o with polls := (n * poll, c.statusRequest jid) :: o.polls }, ?_, hr, hf, ?_⟩
      · rw [RightsParserClient.waitAux]
        rw [if_neg (Nat.not_lt.mpr (htime n (Nat.le_of_lt hlt)))]
        rw [hraise]
        simp only [Bool.false_eq_true, if_false, hgi]
        rw [if_neg hvc, if_neg hvf, ho]
      · simp only [List.length_cons, hl]
        omega

theorem waitAux_ok_inv (c : RightsParserClient) (sv : Nat → HttpResponse)
    (rr : HttpResponse) (jid : String) (poll : Nat) :
    ∀ (fuel n : Nat) (o : WaitOut) (p : Json),
      c.waitAux sv rr jid poll n fuel = some o →
      o.result = Except.ok p →
      ∃ k, n ≤ k ∧ k < n + fuel ∧
        (∀ m, n ≤ m → m < k → nonterminalPoll (sv m)) ∧
        (sv k).raisesForStatus = false ∧
        (sv k).body.getItem "status" = Except.ok (Json.str "completed") ∧
        httpJson rr = Except.ok p := by
  intro fuel
  induction fuel with
  | zero => intro n o p h _; simp [RightsParserClient.waitAux] at h
  | succ fuel ih =>
    intro n o p h hres
    rw [RightsParserClient.waitAux] at h
    split at h
    · obtain rfl := Option.some.inj h
      simp at hres
    · split at h
      · obtain rfl := Option.some.inj h
        simp at hres
      · rename_i hnt hraise
        split at h
        · obtain rfl := Option.some.inj h
          simp at hres
        · rename_i v hgi
          split at h
          · rename_i hvc
            obtain rfl := Option.some.inj h
            refine ⟨n, Nat.le_refl n, by omega, ?_, ?_, ?_, ?_⟩
            · intro m hm hm'; omega
            · simpa using hraise
            · rw [hgi, hvc]
            · exact hres
          · rename_i hvc
            split at h
            · obtain rfl := Option.some.inj h
              simp at hres
            · rename_i hvf
              split at h
              · exact absurd h (by simp)
              · rename_i o' ho'
                obtain rfl := Option.some.inj h
                have hres' : o'.result = Except.ok p := hres
                obtain ⟨k, hk1, hk2, hk3, hk4, hk5, hk6⟩ := ih (n + 1) o' p ho' hres'
                refine ⟨k, by omega, by omega, ?_, hk4, hk5, hk6⟩
                intro m hm hm'
                rcases Nat.eq_or_lt_of_le hm with rfl | hm2
                · exact ⟨by simpa using hraise, v, hgi, hvc, hvf⟩
                · exact hk3 m hm2 hm'

theorem manualPollAux_completed (c : RightsParserClient) (sv : Nat → HttpResponse)
    (rr : HttpResponse) (jid : String) (k : Nat)
    (hsv : ∀ m, m < k → nonterminalPoll (sv m))
    (hkraise : (sv k).raisesForStatus = false)
    (hkst : (sv k).body.getItem "status" = Except.ok (Json.str "completed")) :
    ∀ (fuel n : Nat), n ≤ k → k < n + fuel →
      manualPollAux c sv rr jid n fuel = some (c.get_result jid rr).result := by
  intro fuel
  induction fuel with
  | zero => intro n hnk hk; omega
  | succ fuel ih =>
    intro n hnk hk
    rcases Nat.eq_or_lt_of_le hnk with rfl | hlt
    · rw [manualPollAux]
      have hst : (c.get_status jid (sv n)).result = Except.ok (sv n).body := by
        simp [RightsParserClient.get_status, httpJson, hkraise]
      rw [hst]
      simp only [hkst]
      simp
    · obtain ⟨hraise, v, hgi, hvc, hvf⟩ := hsv n hlt
      rw [manualPollAux]
      have hst : (c.get_status jid (sv n)).result = Except.ok (sv n).body := by
        simp [RightsParserClient.get_status, httpJson, hraise]
      rw [hst]
      simp only [hgi]
      rw [if_neg (by simp [hvc, hvf])]
      exact ih (n + 1) hlt (by omega)

theorem Json.lookup_of_getItem_ok (b : Json) (k : String) (v : Json)
    (h : b.getItem k = Except.ok v) : b.lookup k = some v := by
  cases b with
  | obj fields =>
    rw [Json.getItem] at h
    rw [Json.lookup]
    cases hl : List.lookup k fields with
    | none => rw [hl] at h; exact absurd h (by simp)
    | some w => rw [hl] at h; simpa using h
  | null => exact absurd h (by simp [Json.getItem])
  | bool b => exact absurd h (by simp [Json.getItem])
  | num n => exact absurd h (by simp [Json.getItem])
  | str s => exact absurd h (by simp [Json.getItem])
  | arr xs => exact absurd h (by simp [Json.getItem])

theorem upload_pdf_shape (c : RightsParserClient) (sv : Server)
    (file_path : String) (webhook_url : Option String) (w : Bool) (u : UploadOut)
    (h : c.upload_pdf sv file_path webhook_url w = some u) :
    u.client = c ∧ u.uploadReq = c.uploadRequest webhook_url := by
  simp only [RightsParserClient.upload_pdf] at h
  split at h
  · obtain rfl := Option.some.inj h
    exact ⟨rfl, rfl⟩
  · split at h
    · obtain rfl := Option.some.inj h
      exact ⟨rfl, rfl⟩
    · split at h
      · obtain rfl := Option.some.inj h
        exact ⟨rfl, rfl⟩
      · split at h
        · exact absurd h (by simp)
        · rename_i o ho
          obtain rfl := Option.some.inj h
          exact ⟨rfl, rfl⟩

theorem head?_dropWhile_eq_false {α : Type} (p : α → Bool) :
    ∀ (l : List α) (a : α), (l.dropWhile p).head? = some a → p a = false := by
  intro l
  induction l with
  | nil => intro a h; simp [List.dropWhile] at h
  | cons x xs ih =>
    intro a h
    by_cases hx : p x = true
    · rw [List.dropWhile_cons_of_pos hx] at h
      exact ih a h
    · rw [List.dropWhile_cons_of_neg hx] at h
      have hax : a = x := by simpa using h.symm
      subst hax
      simpa using hx

theorem rstripSlash_no_trailing (s : String) :
    (rstripSlash s).data.getLast? ≠ some '/' := by
  intro h
  rw [rstripSlash] at h
  have h' : (s.data.reverse.dropWhile (fun c => c = '/')).head? = some '/' := by
    simpa [List.getLast?_reverse] using h
  have := head?_dropWhile_eq_false (fun c => decide (c = '/')) s.data.reverse '/' h'
  simp at this

theorem rstripSlash_append_slash (s : String) :
    rstripSlash (s ++ "/") = rstripSlash s := by
  rw [rstripSlash, rstripSlash]
  have hd : (s ++ "/").data = s.data ++ ['/'] := by
    simp [String.data_append]
  rw [hd]
  simp [List.dropWhile]

/-- C3: for every job whose polled status never becomes terminal within
the configured maximum wait, `wait_for_completion` fails with a
`TimeoutError` raised after at most `timeout + poll_interval` seconds of
elapsed time, and the message carries the job identifier and the elapsed
bound (`self.timeout`). -/
theorem wait_timeout_bounded (c : RightsParserClient) (sv : Nat → HttpResponse)
    (rr : HttpResponse) (jid : String) (poll : Nat) (hpoll : 1 ≤ poll)
    (hsv : ∀ m, m * poll ≤ c.timeout → nonterminalPoll (sv m)) :
    ∃ o, c.wait_for_completion sv rr jid poll = some o ∧
      o.result = Except.error (ClientError.timeoutError (timeoutMsg jid c.timeout)) ∧
      o.finishTime ≤ c.timeout + poll ∧
      timeoutMsg jid c.timeout =
        "Job " ++ jid ++ " did not complete within " ++ toString c.timeout ++ "s" := by
  rw [RightsParserClient.wait_for_completion, max_eq_left hpoll]
  obtain ⟨o, ho, hr, hf⟩ := waitAux_timeout c sv rr jid poll hpoll hsv
    (c.timeout / poll + 2) 0 (by omega) (Or.inl rfl)
  exact ⟨o, ho, hr, hf, rfl⟩

/-- Witness for C3 at a concrete input: timeout 5, poll interval 2, the
server forever answering status "processing". -/
theorem wait_timeout_bounded_witness :
    ∃ o, (RightsParserClient.init "http://h" "k" 5).wait_for_completion
        (fun _ => ⟨200, Json.obj [("status", Json.str "processing")]⟩)
        ⟨200, Json.null⟩ "j1" 2 = some o ∧
      o.result = Except.error (ClientError.timeoutError (timeoutMsg "j1" 5)) ∧
      o.finishTime ≤ 5 + 2 ∧
      timeoutMsg "j1" 5 =
        "Job " ++ "j1" ++ " did not complete within " ++ toString 5 ++ "s" :=
  wait_timeout_bounded (RightsParserClient.init "http://h" "k" 5)
    (fun _ => ⟨200, Json.obj [("status", Json.str "processing")]⟩)
    ⟨200, Json.null⟩ "j1" 2 (by decide)
    (fun m _ => ⟨rfl, Json.str "processing", rfl, by decide, by decide⟩)

/-- C5: within every run of `wait_for_completion`, the elapsed times of
consecutive `get_status` calls differ by exactly the fixed poll interval:
no growth, no jitter. -/
theorem poll_interval_fixed (c : RightsParserClient) (sv : Nat → HttpResponse)
    (rr : HttpResponse) (jid : String) (poll : Nat) (o : WaitOut)
    (h : c.wait_for_completion sv rr jid poll = some o)
    (i : Nat) (p q : Nat × Request)
    (hp : o.polls.get? i = some p) (hq : o.polls.get? (i + 1) = some q) :
    q.1 = p.1 + poll := by
  rw [RightsParserClient.wait_for_completion] at h
  obtain ⟨-, -, hps⟩ := waitAux_shape c sv rr jid poll _ 0 o h
  have hp' := hps i p hp
  have hq' := hps (i + 1) q hq
  rw [hp', hq']
  simp [Nat.succ_mul]

/-- Witness for C5 at a concrete input: a run with two polls 7 seconds
apart. -/
theorem poll_interval_fixed_witness :
    ∃ o, (RightsParserClient.init "http://h" "k" 60).wait_for_completion
        (fun n => if n = 0 then ⟨200, Json.obj [("status", Json.str "processing")]⟩
                  else ⟨200, Json.obj [("status", Json.str "completed")]⟩)
        ⟨200, Json.null⟩ "j1" 7 = some o ∧
      ∀ p q, o.polls.get? 0 = some p → o.polls.get? 1 = some q → q.1 = p.1 + 7 :=
  ⟨_, rfl, fun p q hp hq =>
    poll_interval_fixed (RightsParserClient.init "http://h" "k" 60)
      (fun n => if n = 0 then ⟨200, Json.obj [("status", Json.str "processing")]⟩
                else ⟨200, Json.obj [("status", Json.str "completed")]⟩)
      ⟨200, Json.null⟩ "j1" 7 _ rfl 0 p q hp hq⟩

/-- C2 counterexample: with the server reporting error_message "boom" for
a failed job, the raised exception's message is "Job failed: boom" — not
the bare server message "boom", so the message is not the server-reported
message itself. -/
theorem wait_failed_message_not_verbatim :
    ∃ o, (RightsParserClient.init "http://h" "k" 60).wait_for_completion
        (fun _ => ⟨200, Json.obj [("status", Json.str "failed"),
          ("error_message", Json.str "boom")]⟩) ⟨200, Json.null⟩ "j1" 10 = some o ∧
      o.result = Except.error (ClientError.processingError "Job failed: boom") ∧
      o.result ≠ Except.error (ClientError.processingError "boom") := by
  refine ⟨_, rfl, ?_, ?_⟩ <;> decide

/-- C2 (amended): if the polled status becomes "failed" with the server
reporting error message m, `wait_for_completion` fails with a
ProcessingError whose message is "Job failed: " followed by m verbatim
(m is a verbatim suffix of the carried message). -/
theorem wait_failed_processing_error (c : RightsParserClient)
    (sv : Nat → HttpResponse) (rr : HttpResponse) (jid : String) (poll : Nat)
    (hpoll : 1 ≤ poll) (k : Nat) (emsg : String)
    (hsv : ∀ m, m < k → nonterminalPoll (sv m))
    (htime : ∀ m, m ≤ k → m * poll ≤ c.timeout)
    (hkraise : (sv k).raisesForStatus = false)
    (hkst : (sv k).body.getItem "status" = Except.ok (Json.str "failed"))
    (hmsg : (sv k).body.lookup "error_message" = some (Json.str emsg)) :
    ∃ o, c.wait_for_completion sv rr jid poll = some o ∧
      o.result = Except.error (ClientError.processingError ("Job failed: " ++ emsg)) ∧
      emsg.data <:+ ("Job failed: " ++ emsg).data := by
  rw [RightsParserClient.wait_for_completion, max_eq_left hpoll]
  have hk : k < 0 + (c.timeout / poll + 2) := by
    have hkd := (Nat.le_div_iff_mul_le hpoll).mpr (htime k (Nat.le_refl k))
    omega
  obtain ⟨o, ho, hr, hf, hl⟩ := waitAux_failed c sv rr jid poll k hsv htime
    hkraise hkst (c.timeout / poll + 2) 0 (Nat.zero_le k) hk
  have hmv : ((sv k).body.getD "error_message" (Json.str "Unknown error")).pyStr = emsg := by
    rw [Json.getD, hmsg]
    rfl
  refine ⟨o, ho, ?_, ?_⟩
  · rw [hr, hmv]
  · exact ⟨"Job failed: ".data, (String.data_append _ _).symm⟩

/-- Witness for C2's amended theorem at a concrete input: one
"processing" poll, then "failed" with error message "boom". -/
theorem wait_failed_processing_error_witness :
    ∃ o, (RightsParserClient.init "http://h" "k" 60).wait_for_completion
        (fun n => if n = 0 then ⟨200, Json.obj [("status", Json.str "processing")]⟩
                  else ⟨200, Json.obj [("status", Json.str "failed"),
                    ("error_message", Json.str "boom")]⟩)
        ⟨200, Json.null⟩ "j1" 10 = some o ∧
      o.result = Except.error (ClientError.processingError ("Job failed: " ++ "boom")) ∧
      "boom".data <:+ ("Job failed: " ++ "boom").data :=
  wait_failed_processing_error (RightsParserClient.init "http://h" "k" 60)
    (fun n => if n = 0 then ⟨200, Json.obj [("status", Json.str "processing")]⟩
              else ⟨200, Json.obj [("status", Json.str "failed"),
                ("error_message", Json.str "boom")]⟩)
    ⟨200, Json.null⟩ "j1" 10 (by decide) 1 "boom"
    (fun m hm => by
      have hm0 : m = 0 := by omega
      subst hm0
      exact ⟨rfl, Json.str "processing", rfl, by decide, by decide⟩)
    (fun m hm => by
      show m * 10 ≤ 60
      omega)
    rfl rfl rfl

/-- C4: with the server answering the upload with job_id "abc" and status
polls "processing", "processing", "completed", submit-and-wait performs
exactly 3 `get_status` calls and returns the payload fetched from the
result endpoint for job "abc". -/
theorem example_upload_three_polls (file_path : String)
    (webhook_url : Option String) (payload : Json) :
    let P := (RightsParserClient.init "https://your-server.com" "secret-key" 300).upload_pdf
      ⟨⟨200, Json.obj [("job_id", Json.str "abc")]⟩,
       (fun n => if n < 2 then ⟨200, Json.obj [("status", Json.str "processing")]⟩
                 else ⟨200, Json.obj [("status", Json.str "completed")]⟩),
       ⟨200, payload⟩⟩ file_path webhook_url true
    (Option.map UploadOut.result P = some (Except.ok payload)) ∧
    (Option.map (fun o => o.polls.length) (Option.bind P UploadOut.wait) = some 3) ∧
    (Option.bind (Option.bind P UploadOut.wait) WaitOut.resultReq =
      some ⟨"GET", "https://your-server.com/api/v1/result/abc",
        [("X-API-Key", "secret-key")], []⟩) :=
  ⟨rfl, rfl, rfl⟩

/-- C6: `get_status` (and likewise `get_result`, `list_jobs`, `health`)
fails with a TransportError exactly when the HTTP response has a
non-success status (one `raise_for_status` raises for), otherwise returns
the parsed JSON body; each issues exactly the one request, so a failure
is surfaced immediately with no retry. -/
theorem ops_http_error_handling (c : RightsParserClient) (jid : String)
    (resp : HttpResponse) :
    ((c.get_status jid resp).result =
      if resp.raisesForStatus then
        Except.error (ClientError.transportError resp.statusCode)
      else Except.ok resp.body) ∧
    ((c.get_result jid resp).result =
      if resp.raisesForStatus then
        Except.error (ClientError.transportError resp.statusCode)
      else Except.ok resp.body) ∧
    ((c.list_jobs resp).result =
      if resp.raisesForStatus then
        Except.error (ClientError.transportError resp.statusCode)
      else Except.ok resp.body) ∧
    ((c.health resp).result =
      if resp.raisesForStatus then
        Except.error (ClientError.transportError resp.statusCode)
      else Except.ok resp.body) ∧
    (c.get_status jid resp).requests = [c.statusRequest jid] ∧
    (c.get_result jid resp).requests = [c.resultRequest jid] ∧
    (c.list_jobs resp).requests = [c.jobsRequest] ∧
    (c.health resp).requests = [c.healthRequest] :=
  ⟨rfl, rfl, rfl, rfl, rfl, rfl, rfl, rfl⟩

/-- C7: the configuration fields set at construction (api_url, api_key,
timeout — the whole client record) are unchanged after every operation
returns or fails: no operation assigns to `self`. -/
theorem client_config_immutable (c : RightsParserClient) (jid file_path : String)
    (resp : HttpResponse) (sv : Server) (webhook_url : Option String)
    (w : Bool) (svp : Nat → HttpResponse) (rr : HttpResponse) (poll : Nat)
    (o : WaitOut) (u : UploadOut)
    (ho : c.wait_for_completion svp rr jid poll = some o)
    (hu : c.upload_pdf sv file_path webhook_url w = some u) :
    (c.get_status jid resp).client = c ∧
    (c.get_result jid resp).client = c ∧
    (c.list_jobs resp).client = c ∧
    (c.health resp).client = c ∧
    o.client = c ∧
    u.client = c := by
  refine ⟨rfl, rfl, rfl, rfl, ?_, ?_⟩
  · rw [RightsParserClient.wait_for_completion] at ho
    exact (waitAux_shape c svp rr jid poll _ 0 o ho).1
  · exact (upload_pdf_shape c sv file_path webhook_url w u hu).1

/-- Witness for C7 at concrete inputs: a completed wait run and a
no-wait upload run. -/
theorem client_config_immutable_witness :
    ((RightsParserClient.init "http://h" "k" 60).get_status "j" ⟨200, Json.null⟩).client
        = RightsParserClient.init "http://h" "k" 60 ∧
    ((RightsParserClient.init "http://h" "k" 60).get_result "j" ⟨200, Json.null⟩).client
        = RightsParserClient.init "http://h" "k" 60 ∧
    ((RightsParserClient.init "http://h" "k" 60).list_jobs ⟨200, Json.null⟩).client
        = RightsParserClient.init "http://h" "k" 60 ∧
    ((RightsParserClient.init "http://h" "k" 60).health ⟨200, Json.null⟩).client
        = RightsParserClient.init "http://h" "k" 60 ∧
    (WaitOut.client ⟨RightsParserClient.init "http://h" "k" 60,
        [(0, (RightsParserClient.init "http://h" "k" 60).statusRequest "j")],
        some ((RightsParserClient.init "http://h" "k" 60).resultRequest "j"), 0,
        Except.ok Json.null⟩)
        = RightsParserClient.init "http://h" "k" 60 ∧
    (UploadOut.client ⟨RightsParserClient.init "http://h" "k" 60,
        (RightsParserClient.init "http://h" "k" 60).uploadRequest none, none,
        Except.ok (Json.obj [("job_id", Json.str "a")])⟩)
        = RightsParserClient.init "http://h" "k" 60 :=
  client_config_immutable (RightsParserClient.init "http://h" "k" 60) "j" "f.pdf"
    ⟨200, Json.null⟩
    ⟨⟨200, Json.obj [("job_id", Json.str "a")]⟩,
     (fun _ => ⟨200, Json.obj [("status", Json.str "completed")]⟩), ⟨200, Json.null⟩⟩
    none false
    (fun _ => ⟨200, Json.obj [("status", Json.str "completed")]⟩) ⟨200, Json.null⟩ 10
    _ _ rfl rfl

/-- C9: trailing slash characters of the base URL are stripped at
construction, every request URL is the normalized base followed by
exactly one slash and the endpoint path (the stored base never ends in a
slash, each path literal starts with one), and a base URL given with or
without a trailing slash yields the identical client, hence identical
request URLs. -/
theorem base_url_normalization (api_url api_key : String) (t : Nat) (jid : String) :
    ((RightsParserClient.init api_url api_key t).statusRequest jid).url =
      (RightsParserClient.init api_url api_key t).api_url ++ "/api/v1/status/" ++ jid ∧
    ((RightsParserClient.init api_url api_key t).uploadRequest none).url =
      (RightsParserClient.init api_url api_key t).api_url ++ "/api/v1/upload" ∧
    ((RightsParserClient.init api_url api_key t).resultRequest jid).url =
      (RightsParserClient.init api_url api_key t).api_url ++ "/api/v1/result/" ++ jid ∧
    ((RightsParserClient.init api_url api_key t).jobsRequest).url =
      (RightsParserClient.init api_url api_key t).api_url ++ "/api/v1/jobs" ∧
    ((RightsParserClient.init api_url api_key t).healthRequest).url =
      (RightsParserClient.init api_url api_key t).api_url ++ "/health" ∧
    (RightsParserClient.init api_url api_key t).api_url.data.getLast? ≠ some '/' ∧
    RightsParserClient.init (api_url ++ "/") api_key t =
      RightsParserClient.init api_url api_key t := by
  refine ⟨rfl, rfl, rfl, rfl, rfl, rstripSlash_no_trailing api_url, ?_⟩
  rw [RightsParserClient.init, RightsParserClient.init, rstripSlash_append_slash]

/-- Witness for C9 at a concrete input: base URL with a trailing slash. -/
theorem base_url_normalization_witness :
    ((RightsParserClient.init "https://x.com/" "k" 9).statusRequest "j").url =
      (RightsParserClient.init "https://x.com/" "k" 9).api_url ++ "/api/v1/status/" ++ "j" ∧
    ((RightsParserClient.init "https://x.com/" "k" 9).uploadRequest none).url =
      (RightsParserClient.init "https://x.com/" "k" 9).api_url ++ "/api/v1/upload" ∧
    ((RightsParserClient.init "https://x.com/" "k" 9).resultRequest "j").url =
      (RightsParserClient.init "https://x.com/" "k" 9).api_url ++ "/api/v1/result/" ++ "j" ∧
    ((RightsParserClient.init "https://x.com/" "k" 9).jobsRequest).url =
      (RightsParserClient.init "https://x.com/" "k" 9).api_url ++ "/api/v1/jobs" ∧
    ((RightsParserClient.init "https://x.com/" "k" 9).healthRequest).url =
      (RightsParserClient.init "https://x.com/" "k" 9).api_url ++ "/health" ∧
    (RightsParserClient.init "https://x.com/" "k" 9).api_url.data.getLast? ≠ some '/' ∧
    RightsParserClient.init ("https://x.com/" ++ "/") "k" 9 =
      RightsParserClient.init "https://x.com/" "k" 9 :=
  base_url_normalization "https://x.com/" "k" 9 "j"

/-- C10: if the upload response succeeds over HTTP but its JSON object
body lacks the key "job_id", `upload_pdf` fails with a KeyError even when
`wait_for_result` is false; and every job dict a no-wait `upload_pdf`
returns successfully contains "job_id". -/
theorem upload_missing_job_id (c : RightsParserClient) (sv sv2 : Server)
    (file_path : String) (webhook_url : Option String) (w : Bool)
    (u u2 : UploadOut) (j : Json) (fields : List (String × Json))
    (hok : sv.upload.raisesForStatus = false)
    (hbody : sv.upload.body = Json.obj fields)
    (hmiss : List.lookup "job_id" fields = none)
    (h : c.upload_pdf sv file_path webhook_url w = some u)
    (h2 : c.upload_pdf sv2 file_path webhook_url false = some u2)
    (hres2 : u2.result = Except.ok j) :
    u.result = Except.error (ClientError.keyError "job_id") ∧
    ∃ v, j.lookup "job_id" = some v := by
  constructor
  · have hgi : sv.upload.body.getItem "job_id" =
        Except.error (ClientError.keyError "job_id") := by
      rw [hbody, Json.getItem, hmiss]
    simp only [RightsParserClient.upload_pdf, hok, hgi, Bool.false_eq_true,
      if_false] at h
    obtain rfl := Option.some.inj h.symm
    rfl
  · simp only [RightsParserClient.upload_pdf] at h2
    split at h2
    · obtain rfl := Option.some.inj h2
      simp at hres2
    · split at h2
      · obtain rfl := Option.some.inj h2
        simp at hres2
      · rename_i jid hgi2
        obtain rfl := Option.some.inj h2
        have hj : j = sv2.upload.body := by simpa using hres2.symm
        subst hj
        exact ⟨jid, Json.lookup_of_getItem_ok _ _ _ hgi2⟩

/-- Witness for C10 at concrete inputs: an upload response without
"job_id" (KeyError) and one with it (job dict contains the key). -/
theorem upload_missing_job_id_witness :
    (UploadOut.result ⟨RightsParserClient.init "http://h" "k" 60,
        (RightsParserClient.init "http://h" "k" 60).uploadRequest none, none,
        Except.error (ClientError.keyError "job_id")⟩)
        = Except.error (ClientError.keyError "job_id") ∧
    ∃ v, (Json.obj [("job_id", Json.str "a")]).lookup "job_id" = some v :=
  upload_missing_job_id (RightsParserClient.init "http://h" "k" 60)
    ⟨⟨200, Json.obj [("status", Json.str "queued")]⟩,
     (fun _ => ⟨200, Json.null⟩), ⟨200, Json.null⟩⟩
    ⟨⟨200, Json.obj [("job_id", Json.str "a")]⟩,
     (fun _ => ⟨200, Json.null⟩), ⟨200, Json.null⟩⟩
    "f.pdf" none false _ _
    (Json.obj [("job_id", Json.str "a")]) [("status", Json.str "queued")]
    rfl rfl rfl rfl rfl rfl

/-- C8: every HTTP request issued by any client operation — the four
single-request operations, the polling requests and result request of
`wait_for_completion`, and the upload POST of `upload_pdf` — carries the
X-API-Key header set to the API key given at construction. -/
theorem every_request_carries_api_key (api_url api_key : String) (t : Nat)
    (jid file_path : String) (resp : HttpResponse) (sv : Server)
    (webhook_url : Option String) (w : Bool) (svp : Nat → HttpResponse)
    (rr : HttpResponse) (poll : Nat) (o : WaitOut) (u : UploadOut) (req : Request)
    (ho : (RightsParserClient.init api_url api_key t).wait_for_completion svp rr jid poll
      = some o)
    (hu : (RightsParserClient.init api_url api_key t).upload_pdf sv file_path webhook_url w
      = some u)
    (hreq :
      req ∈ ((RightsParserClient.init api_url api_key t).get_status jid resp).requests ∨
      req ∈ ((RightsParserClient.init api_url api_key t).get_result jid resp).requests ∨
      req ∈ ((RightsParserClient.init api_url api_key t).list_jobs resp).requests ∨
      req ∈ ((RightsParserClient.init api_url api_key t).health resp).requests ∨
      req ∈ o.polls.map Prod.snd ∨
      o.resultReq = some req ∨
      req = u.uploadReq) :
    ("X-API-Key", api_key) ∈ req.headers := by
  rw [RightsParserClient.wait_for_completion] at ho
  obtain ⟨-, hrr, hps⟩ := waitAux_shape _ svp rr jid poll _ 0 o ho
  rcases hreq with h | h | h | h | h | h | h
  · have hr : req = (RightsParserClient.init api_url api_key t).statusRequest jid := by
      simpa [RightsParserClient.get_status] using h
    subst hr
    simp [RightsParserClient.statusRequest, RightsParserClient.init]
  · have hr : req = (RightsParserClient.init api_url api_key t).resultRequest jid := by
      simpa [RightsParserClient.get_result] using h
    subst hr
    simp [RightsParserClient.resultRequest, RightsParserClient.init]
  · have hr : req = (RightsParserClient.init api_url api_key t).jobsRequest := by
      simpa [RightsParserClient.list_jobs] using h
    subst hr
    simp [RightsParserClient.jobsRequest, RightsParserClient.init]
  · have hr : req = (RightsParserClient.init api_url api_key t).healthRequest := by
      simpa [RightsParserClient.health] using h
    subst hr
    simp [RightsParserClient.healthRequest, RightsParserClient.init]
  · obtain ⟨a, ha, hfa⟩ := List.mem_map.mp h
    obtain ⟨i, hi⟩ := List.get?_of_mem ha
    have hpa := hps i a hi
    rw [← hfa, hpa]
    simp [RightsParserClient.statusRequest, RightsParserClient.init]
  · rcases hrr with hn | hs
    · rw [hn] at h
      exact absurd h (by simp)
    · rw [hs] at h
      have hr : req = (RightsParserClient.init api_url api_key t).resultRequest jid :=
        (Option.some.inj h).symm
      subst hr
      simp [RightsParserClient.resultRequest, RightsParserClient.init]
  · have h2 := (upload_pdf_shape _ sv file_path webhook_url w u hu).2
    rw [h, h2]
    simp [RightsParserClient.uploadRequest, RightsParserClient.init]

/-- Witness for C8 at a concrete input: the status request of a
`get_status` call. -/
theorem every_request_carries_api_key_witness :
    ("X-API-Key", "k") ∈
      ((RightsParserClient.init "http://h" "k" 60).statusRequest "j").headers :=
  every_request_carries_api_key "http://h" "k" 60 "j" "f.pdf" ⟨200, Json.null⟩
    ⟨⟨200, Json.obj [("job_id", Json.str "a")]⟩,
     (fun _ => ⟨200, Json.obj [("status", Json.str "completed")]⟩), ⟨200, Json.null⟩⟩
    none false
    (fun _ => ⟨200, Json.obj [("status", Json.str "completed")]⟩) ⟨200, Json.null⟩ 10
    _ _ ((RightsParserClient.init "http://h" "k" 60).statusRequest "j")
    rfl rfl (Or.inl (List.mem_singleton.mpr rfl))

/-- C1: for every file and every fixed sequence of server responses, the
result payload returned by `upload_pdf` with `wait_for_result` true is
exactly the payload returned by the manual sequence: `upload_pdf` with
`wait_for_result` false, then repeated `get_status` until a terminal
status, then `get_result`. -/
theorem submit_and_wait_refines_manual (c : RightsParserClient) (sv : Server)
    (file_path : String) (webhook_url : Option String) (u : UploadOut) (p : Json)
    (h : c.upload_pdf sv file_path webhook_url true = some u)
    (hres : u.result = Except.ok p) :
    manual_sequence c sv file_path webhook_url = some (Except.ok p) := by
  simp only [RightsParserClient.upload_pdf] at h
  split at h
  · obtain rfl := Option.some.inj h
    simp at hres
  · rename_i hraise
    split at h
    · obtain rfl := Option.some.inj h
      simp at hres
    · rename_i jid hgi
      split at h
      · rename_i htf
        exact absurd htf (by decide)
      · split at h
        · exact absurd h (by simp)
        · rename_i o ho
          obtain rfl := Option.some.inj h
          have hores : o.result = Except.ok p := hres
          rw [RightsParserClient.wait_for_completion] at ho
          obtain ⟨k, hk0, hkF, hnon, hkraise2, hkcomp, hjr⟩ :=
            waitAux_ok_inv c sv.status sv.result jid.pyStr 10 _ 0 o p ho hores
          have hup : c.upload_pdf sv file_path webhook_url false =
              some ⟨c, c.uploadRequest webhook_url, none, Except.ok sv.upload.body⟩ := by
            simp only [RightsParserClient.upload_pdf, hgi]
            rw [if_neg hraise, if_pos trivial]
          have hkF' : k < 0 + (c.timeout / 10 + 2) := hkF
          rw [manual_sequence, hup]
          simp only [hgi]
          rw [manualPollAux_completed c sv.status sv.result jid.pyStr k
            (fun m hm => hnon m (Nat.zero_le m) hm) hkraise2 hkcomp
            (c.timeout / 10 + 2) 0 (Nat.zero_le k) hkF']
          have hgr : (c.get_result jid.pyStr sv.result).result = Except.ok p := hjr
          rw [hgr]

/-- Witness for C1 at a concrete input: upload answered with job_id
"abc", first status poll already "completed". -/
theorem submit_and_wait_refines_manual_witness :
    manual_sequence (RightsParserClient.init "http://h" "k" 60)
      ⟨⟨200, Json.obj [("job_id", Json.str "abc")]⟩,
       (fun _ => ⟨200, Json.obj [("status", Json.str "completed")]⟩),
       ⟨200, Json.obj [("x", Json.num 1)]⟩⟩ "f.pdf" none
      = some (Except.ok (Json.obj [("x", Json.num 1)])) :=
  submit_and_wait_refines_manual (RightsParserClient.init "http://h" "k" 60)
    ⟨⟨200, Json.obj [("job_id", Json.str "abc")]⟩,
     (fun _ => ⟨200, Json.obj [("status", Json.str "completed")]⟩),
     ⟨200, Json.obj [("x", Json.num 1)]⟩⟩ "f.pdf" none
    _ (Json.obj [("x", Json.num 1)]) rfl rfl
